import Mathlib

/-
Verification of the rsub protocol session engine (rsub.py) against its
natural-language specification.

Modelling conventions (shallow embedding):
  - A line read from the socket (`self.sockfile.readline()`) is modelled as a
    `List Char` for the header-parsing loop of `Session.run` (the UTF-8 decode
    in `run` is the identity on character content), and as a `List Nat` (raw
    bytes) for the body-reading loop of `Session._download`.
  - Python `str.strip` / `bytes.strip` is modelled by `strip` below, using
    `Char.isWhitespace` (space, tab, CR, LF — the whitespace actually arising
    in protocol lines).
  - Python `dict` (`self.env`, the global `SESSIONS`) is modelled as an
    association list with unique keys: an update removes any entry for the key
    and appends the new binding, so lookups agree with `dict` semantics.
  - A Python statement that raises (`ValueError` from tuple unpacking,
    `KeyError` from a missing dict key, a failed `assert`) makes the modelled
    operation return `none` / `LineResult.error`.
  - The unbounded `while` loop of `Session._download` is modelled with an
    explicit fuel parameter; `none` for every fuel amount means the loop never
    terminates.
  - Socket writes (`self.socket.send`), socket teardown and file deletion
    (`Path.unlink`) are modelled as an explicit trace of effects (`SockOp`,
    `removedFile` fields).
-/

namespace Rsub

/-- Python `str.strip` / `bytes.strip`, left half: drop leading whitespace. -/
def lstrip (l : List Char) : List Char := l.dropWhile Char.isWhitespace

/-- Python `str.strip` / `bytes.strip`, right half: drop trailing whitespace. -/
def rstrip (l : List Char) : List Char := (l.reverse.dropWhile Char.isWhitespace).reverse

/-- Python `s.strip()`: drop leading and trailing whitespace. -/
def strip (l : List Char) : List Char := rstrip (lstrip l)

/-- Python `s.split(sep, 1)` unpacked into two variables: `some (before, after)`
splitting at the first occurrence of `sep`, `none` when `sep` does not occur
(in which case the unpacking `k, v = s.split(sep, 1)` raises `ValueError`). -/
def splitFirst (sep : Char) : List Char → Option (List Char × List Char)
  | [] => none
  | c :: cs =>
    if c = sep then some ([], cs)
    else (splitFirst sep cs).map (fun p => (c :: p.1, p.2))

/-- Python `dict` update `env[k] = v`: any existing binding of `k` is replaced
(modelled by filtering it out and appending the new binding). -/
def envSet (env : List (List Char × List Char)) (k v : List Char) :
    List (List Char × List Char) :=
  env.filter (fun p => ! decide (p.1 = k)) ++ [(k, v)]

/-- Python `dict` lookup `env[k]`: `none` models a `KeyError`. -/
def envGet (env : List (List Char × List Char)) (k : List Char) : Option (List Char) :=
  (env.find? (fun p => decide (p.1 = k))).map (fun p => p.2)

/-- The mutable parsing state of `Session.run`: `self.env` and
`self.parse_done`. -/
structure ParseState where
  env : List (List Char × List Char)
  parse_done : Bool
deriving DecidableEq

/-- Outcome of one iteration of the `Session.run` loop on a non-empty line. -/
inductive LineResult where
  /-- The loop continues with this state (line handled, no body started). -/
  | cont (st : ParseState)
  /-- The `data` branch was taken: `self._download()` is invoked with this
  state (afterwards `run` sets `parse_done` and schedules `on_done`). -/
  | beginBody (st : ParseState)
  /-- The iteration raises (`ValueError`: the stripped line has no `:` to
  split on), terminating the read loop. -/
  | error
deriving DecidableEq

/-- One iteration of the `while True` loop of `Session.run` on a line with
`len(line) != 0` (the EOF case `len(line) == 0` returns from `run` and is
handled by the caller). Mirrors rsub.py lines 77-95. -/
def processLine (st : ParseState) (line : List Char) : LineResult :=
  if st.parse_done then .cont st
  else if strip line = "open".data then .cont st
  else
    match splitFirst ':' (strip line) with
    | none => .error
    | some (key, val) =>
      let st' : ParseState := ⟨envSet st.env key (strip val), st.parse_done⟩
      if key = "data".data then .beginBody st' else .cont st'

/-- Python `self.sockfile.readline()` against the remaining stream contents:
after the stream is exhausted (peer EOF) every further call returns `b""`. -/
def readLine : List (List Nat) → List Nat × List (List Nat)
  | [] => ([], [])
  | l :: ls => (l, ls)

/-- The body-reading `while done_size < total_size` loop of `Session._download`
(rsub.py lines 57-67), with explicit fuel: `none` means the loop has not
terminated within `fuel` iterations. -/
def downloadLoop : Nat → Nat → Nat → List (List Nat) → List Nat → Option (List Nat)
  | 0, _, _, _, _ => none
  | fuel + 1, done_size, total_size, stream, body =>
    if done_size < total_size then
      let (line, rest) := readLine stream
      let body' :=
        if done_size + line.length > total_size then
          body ++ line.take (total_size - done_size)
        else body ++ line
      downloadLoop fuel (done_size + line.length) total_size rest body'
    else some body

/-- The body bytes `Session._download` writes to the staged file: the loop of
lines 56-67 guarded by `if total_size > 1` (line 58). `some body` is the staged
content; `none` means the loop never finished within `fuel` iterations. -/
def download (fuel total_size : Nat) (stream : List (List Nat)) : Option (List Nat) :=
  if total_size > 1 then downloadLoop fuel 0 total_size stream [] else some []

/-- Python `s.lstrip("/")`: drop leading `/` characters. -/
def lstripSlash (s : List Char) : List Char := s.dropWhile (fun c => decide (c = '/'))

/-- pathlib `Path(s).parent` for a clean relative path `s` (no duplicate
slashes, no `.` components — the shape `_download` builds from well-formed
headers): everything before the last `/`, or `"."` when `s` has no `/`. -/
def pathParent (s : List Char) : List Char :=
  if s.any (fun c => decide (c = '/')) then
    ((s.reverse.dropWhile (fun c => ! decide (c = '/'))).drop 1).reverse
  else ".".data

/-- Python `os.path.basename`: everything after the last `/`. -/
def basename (s : List Char) : List Char :=
  (s.reverse.takeWhile (fun c => ! decide (c = '/'))).reverse

/-- pathlib `/` join, for a non-empty left operand and a clean relative right
operand (the only joins `_download` performs). -/
def joinPath (a b : List Char) : List Char := a ++ '/' :: b

/-- The staged-path computation of `Session._download` (rsub.py lines 47-52):
`session_dir / remote / Path(real_path.lstrip("/")).parent /
os.path.basename(name)` where `remote, name = display_name.split(":", 1)`.
`none` models the `ValueError` when `display-name` has no `:`. -/
def localPathOf (session_dir display_name real_path : List Char) : Option (List Char) :=
  (splitFirst ':' display_name).map fun rn =>
    joinPath (joinPath (joinPath session_dir rn.1) (pathParent (lstripSlash real_path)))
      (basename rn.2)

/-- Python `os.path.dirname`: everything before the last `/` (empty when `s`
has no `/`). -/
def dirname (s : List Char) : List Char :=
  ((s.reverse.dropWhile (fun c => ! decide (c = '/'))).drop 1).reverse

/-- Modelled from the spec's words, for comparison with `localPathOf` (the
claim's formula): root / remote-label / dirname(real-path) with its leading
`/` stripped / basename(remote-display-path). -/
def stagedPathSpec (root display_name real_path : List Char) : Option (List Char) :=
  (splitFirst ':' display_name).map fun rn =>
    root ++ '/' :: rn.1 ++ '/' :: lstripSlash (dirname real_path)
      ++ '/' :: basename rn.2

/-- UTF-8 bytes of the given text (identified with code points: all protocol
framing text and tokens in this development are ASCII). -/
def bytesOf (s : List Char) : List Nat := s.map Char.toNat

/-- One observable socket effect of a `Session`. -/
inductive SockOp where
  /-- `self.socket.send(data)`. -/
  | send (data : List Nat)
  /-- `self.socket.shutdown(socket.SHUT_RDWR)`. -/
  | shutdown
  /-- `self.socket.close()`. -/
  | closeSock
deriving DecidableEq

/-- The fields of a `Session` that `close` / `send_save` / `on_done` read. -/
structure SessionSt where
  env : List (List Char × List Char)
  local_path : Option (List Char)
deriving DecidableEq

/-- What one `Session.close(keep)` call does: its socket writes in order, and
the staged file it deletes, if any. -/
structure CloseResult where
  ops : List SockOp
  removedFile : Option (List Char)
deriving DecidableEq

/-- `Session.close(keep)` (rsub.py lines 97-105): sends `close`, the token
line and a blank line, shuts down and closes the socket, then unlinks the
staged file unless `keep`. `none` models `KeyError` on a missing `token`
header, or the failed `assert self.local_path` when deleting. -/
def close (s : SessionSt) (keep : Bool) : Option CloseResult :=
  match envGet s.env "token".data with
  | none => none
  | some tok =>
    let ops : List SockOp :=
      [.send (bytesOf "close\n".data),
       .send (bytesOf "token: ".data ++ bytesOf tok ++ bytesOf "\n".data),
       .send (bytesOf "\n".data),
       .shutdown, .closeSock]
    if keep then some ⟨ops, none⟩
    else
      match s.local_path with
      | none => none
      | some p => some ⟨ops, some p⟩

/-- `Session.send_save()` (rsub.py lines 108-116), `content` being the bytes
read back from the staged file: sends `save`, the token line, `data: <len>`,
the raw bytes, and a blank line. `none` models `KeyError` on a missing
`token` header or the failed `assert self.local_path`. -/
def send_save (s : SessionSt) (content : List Nat) : Option (List SockOp) :=
  match envGet s.env "token".data, s.local_path with
  | some tok, some _ =>
    some [.send (bytesOf "save\n".data),
          .send (bytesOf "token: ".data ++ bytesOf tok ++ bytesOf "\n".data),
          .send (bytesOf "data: ".data ++ bytesOf (Nat.repr content.length).data
            ++ bytesOf "\n".data),
          .send content,
          .send (bytesOf "\n".data)]
  | _, _ => none

/-- Lookup in the global `SESSIONS` dict, keyed by `view.id()`. -/
def dictGet (m : List (Nat × SessionSt)) (k : Nat) : Option SessionSt :=
  (m.find? (fun p => p.1 == k)).map (fun p => p.2)

/-- `SESSIONS[k] = v`: any existing binding of `k` is replaced. -/
def dictSet (m : List (Nat × SessionSt)) (k : Nat) (v : SessionSt) :
    List (Nat × SessionSt) :=
  m.filter (fun p => ! (p.1 == k)) ++ [(k, v)]

/-- `SESSIONS.pop(k)`, the mapping afterwards. -/
def dictRemove (m : List (Nat × SessionSt)) (k : Nat) : List (Nat × SessionSt) :=
  m.filter (fun p => ! (p.1 == k))

/-- Outcome of the registry part of `Session.on_done`: the registry
afterwards, the socket writes performed on the evicted previous session (empty
when there was none), and the staged file deleted during eviction, if any. -/
structure OnDoneResult where
  sessions : List (Nat × SessionSt)
  prevOps : List SockOp
  prevRemoved : Option (List Char)
deriving DecidableEq

/-- The duplicate-resolution part of `Session.on_done` (rsub.py lines
130-137): `view_id` is the identity the editor returned for the staged path;
a previous session under that identity is closed with `keep=True` and the
slot is taken. `none` models `previous.close(keep=True)` raising. -/
def on_done (sessions : List (Nat × SessionSt)) (view_id : Nat) (s : SessionSt) :
    Option OnDoneResult :=
  match dictGet sessions view_id with
  | some previous =>
    (close previous true).map fun r => ⟨dictSet sessions view_id s, r.ops, r.removedFile⟩
  | none => some ⟨dictSet sessions view_id s, [], none⟩

/-- Outcome of one editor event callback: the registry afterwards, the socket
writes performed, and the staged file deleted, if any. -/
structure EventResult where
  sessions : List (Nat × SessionSt)
  ops : List SockOp
  removedFile : Option (List Char)
deriving DecidableEq

/-- `RSubEventListener.on_post_save_async` (rsub.py lines 196-200), `content`
being the bytes of the just-saved staged file. -/
def on_post_save_async (sessions : List (Nat × SessionSt)) (view_id : Nat)
    (content : List Nat) : Option EventResult :=
  match dictGet sessions view_id with
  | some session => (send_save session content).map fun ops => ⟨sessions, ops, none⟩
  | none => some ⟨sessions, [], none⟩

/-- `RSubEventListener.on_close` (rsub.py lines 202-206). -/
def on_close (sessions : List (Nat × SessionSt)) (view_id : Nat) : Option EventResult :=
  match dictGet sessions view_id with
  | some session =>
    (close session false).map fun r => ⟨dictRemove sessions view_id, r.ops, r.removedFile⟩
  | none => some ⟨sessions, [], none⟩

variable {α : Type _}

theorem dropWhile_cons_neg {p : α → Bool} {c : α} {l : List α} (h : p c = false) :
    List.dropWhile p (c :: l) = c :: l := by
  simp [List.dropWhile_cons, h]

theorem dropWhile_append_all {p : α → Bool} {xs ys : List α}
    (h : ∀ c ∈ xs, p c = true) :
    List.dropWhile p (xs ++ ys) = List.dropWhile p ys := by
  rw [List.dropWhile_append]
  have hnil : List.dropWhile p xs = [] := List.dropWhile_eq_nil_iff.mpr h
  simp [hnil]

theorem head_false_of_dropWhile_cons {p : α → Bool} {l : List α} {c : α} {t : List α}
    (h : List.dropWhile p l = c :: t) : p c = false := by
  have h2 := List.head?_dropWhile_not p l
  rw [h] at h2
  simpa using h2

theorem splitFirst_append {sep : Char} (key w : List Char)
    (h : ∀ c ∈ key, c ≠ sep) :
    splitFirst sep (key ++ sep :: w) = some (key, w) := by
  induction key with
  | nil => simp [splitFirst]
  | cons c cs ih =>
    have hc : c ≠ sep := h c (List.mem_cons_self c cs)
    have ih' := ih (fun x hx => h x (List.mem_cons_of_mem c hx))
    simp [splitFirst, hc, ih']

theorem splitFirst_eq_append {sep : Char} {l a b : List Char}
    (h : splitFirst sep l = some (a, b)) : l = a ++ sep :: b := by
  induction l generalizing a b with
  | nil => exact Option.noConfusion h
  | cons c cs ih =>
    by_cases hc : c = sep
    · rw [splitFirst, if_pos hc] at h
      obtain ⟨rfl, rfl⟩ := Prod.mk.injEq .. ▸ Option.some_inj.mp h
      simp [hc]
    · rw [splitFirst, if_neg hc] at h
      match hcs : splitFirst sep cs with
      | none => rw [hcs] at h; exact Option.noConfusion h
      | some p =>
        rw [hcs] at h
        simp only [Option.map_some', Option.some_inj] at h
        have hcs' := ih (a := p.1) (b := p.2) (by rw [hcs])
        injection h with h1 h2
        subst h1
        subst h2
        rw [hcs']
        simp

theorem rstrip_append_cons (xs : List Char) {c : Char} (ys : List Char)
    (h : c.isWhitespace = false) :
    rstrip (xs ++ c :: ys) = xs ++ c :: rstrip ys := by
  unfold rstrip
  rw [show xs ++ c :: ys = xs ++ [c] ++ ys by simp, List.reverse_append,
    List.reverse_append, List.dropWhile_append]
  by_cases hys : (List.dropWhile Char.isWhitespace ys.reverse).isEmpty = true
  · rw [if_pos hys]
    have hnil : List.dropWhile Char.isWhitespace ys.reverse = [] :=
      List.isEmpty_iff.mp hys
    simp [hnil, dropWhile_cons_neg h]
  · rw [if_neg hys]
    simp

theorem rstrip_append_ws (xs : List Char) {c : Char} (h : c.isWhitespace = true) :
    rstrip (xs ++ [c]) = rstrip xs := by
  unfold rstrip
  rw [List.reverse_append]
  simp [List.dropWhile_cons, h]

theorem lstrip_all_ws {l : List Char} (h : lstrip l = []) :
    ∀ c ∈ l, c.isWhitespace = true :=
  List.dropWhile_eq_nil_iff.mp h

theorem rstrip_eq_nil_of_all_ws {l : List Char} (h : ∀ c ∈ l, c.isWhitespace = true) :
    rstrip l = [] := by
  unfold rstrip
  have : List.dropWhile Char.isWhitespace l.reverse = [] :=
    List.dropWhile_eq_nil_iff.mpr (fun x hx => h x (List.mem_reverse.mp hx))
  simp [this]

theorem dropWhile_dropWhile (p : α → Bool) (l : List α) :
    List.dropWhile p (List.dropWhile p l) = List.dropWhile p l := by
  match h : List.dropWhile p l with
  | [] => simp
  | c :: t => rw [dropWhile_cons_neg (head_false_of_dropWhile_cons h)]

theorem rstrip_rstrip (l : List Char) : rstrip (rstrip l) = rstrip l := by
  unfold rstrip
  rw [List.reverse_reverse, dropWhile_dropWhile]

theorem rstrip_cons_rstrip (c : Char) (l : List Char) :
    rstrip (c :: rstrip l) = rstrip (c :: l) := by
  unfold rstrip
  rw [List.reverse_cons, List.reverse_cons, List.reverse_reverse,
    List.dropWhile_append, List.dropWhile_append, dropWhile_dropWhile]

theorem strip_rstrip (l : List Char) : strip (rstrip l) = strip l := by
  unfold strip
  match h : lstrip l with
  | [] =>
    have hall := lstrip_all_ws h
    rw [rstrip_eq_nil_of_all_ws hall]
    rfl
  | c :: t =>
    have hc : c.isWhitespace = false := head_false_of_dropWhile_cons h
    have hd : List.dropWhile Char.isWhitespace l = c :: t := h
    have hdecomp : l = List.takeWhile Char.isWhitespace l ++ c :: t := by
      conv_lhs => rw [← List.takeWhile_append_dropWhile Char.isWhitespace l]
      rw [hd]
    have htw : ∀ x ∈ List.takeWhile Char.isWhitespace l, x.isWhitespace = true :=
      fun x hx => List.mem_takeWhile_imp hx
    have hls : lstrip (List.takeWhile Char.isWhitespace l ++ c :: rstrip t) =
        c :: rstrip t := by
      unfold lstrip
      rw [dropWhile_append_all htw, dropWhile_cons_neg hc]
    conv_lhs => rw [hdecomp, rstrip_append_cons _ _ hc, hls]
    rw [rstrip_cons_rstrip]

theorem strip_append_trailing_ws (l : List Char) {c : Char}
    (h : c.isWhitespace = true) : strip (l ++ [c]) = strip l := by
  rw [← strip_rstrip (l ++ [c]), rstrip_append_ws l h, strip_rstrip]

theorem colon_not_mem_open : ':' ∉ "open".data := by decide

/-- C4 counterexample: the blank line `"\n"` arriving in the initial pre-body
state is not ignored, contrary to the claim: the iteration raises
(`LineResult.error`, the `ValueError` from unpacking a colon-less split)
rather than leaving the parser state unchanged. -/
theorem blank_line_ignored_cex :
    processLine ⟨[], false⟩ ("\n".data) = LineResult.error ∧
    processLine ⟨[], false⟩ ("\n".data) ≠ LineResult.cont ⟨[], false⟩ := by decide

/-- C4 (corrected): a blank line received before the body begins is NOT
ignored: stripped it is empty, so it has no `:` and the unpacking
`key, val = uline.split(":", 1)` raises `ValueError`, terminating the read
loop (the headers mapping is untouched only because the error occurs before
any recording). -/
theorem blank_line_pre_body_raises (st : ParseState) (line : List Char)
    (hdone : st.parse_done = false) (hblank : strip line = []) :
    processLine st line = LineResult.error := by
  unfold processLine
  rw [hdone, hblank]
  simp [splitFirst]

theorem blank_line_raises_witness :
    processLine ⟨[("real-path".data, "/x".data)], false⟩ ("  ".data) =
      LineResult.error :=
  blank_line_pre_body_raises ⟨[("real-path".data, "/x".data)], false⟩ ("  ".data)
    rfl (by decide)

/-- C3 counterexample: a `data:` header as the very first (and only) header
line DOES enter body-reading mode: `processLine` records it and invokes the
download (`LineResult.beginBody`), instead of ignoring the line as the claim
states. -/
theorem data_first_header_cex :
    processLine ⟨[], false⟩ ("data: 42\n".data) =
      LineResult.beginBody ⟨[("data".data, "42".data)], false⟩ ∧
    processLine ⟨[], false⟩ ("data: 42\n".data) ≠ LineResult.cont ⟨[], false⟩ := by
  decide

/-- C3 (corrected): a `data:` header line ALWAYS starts body-reading mode —
rsub.py line 89 tests only `key == "data"`, with no guard on how many headers
were collected before — so `data` as the first and only header still records
the field and invokes `_download`. -/
theorem data_header_always_begins_body (env : List (List Char × List Char))
    (line k v : List Char)
    (hsplit : splitFirst ':' (strip line) = some (k, v)) (hk : k = "data".data) :
    processLine ⟨env, false⟩ line =
      LineResult.beginBody ⟨envSet env k (strip v), false⟩ := by
  subst hk
  have hline : strip line = "data".data ++ ':' :: v := splitFirst_eq_append hsplit
  have hopen : ¬ strip line = "open".data := by
    rw [hline]
    intro hcontra
    exact colon_not_mem_open
      (hcontra ▸ List.mem_append_right _ (List.mem_cons_self _ _))
  unfold processLine
  rw [if_neg (by simp), if_neg hopen, hsplit]
  simp

theorem data_header_begins_body_witness :
    processLine ⟨[], false⟩ ("data: 7\n".data) =
      LineResult.beginBody ⟨envSet [] ("data".data) (strip (" 7".data)), false⟩ :=
  data_header_always_begins_body [] ("data: 7\n".data) ("data".data) (" 7".data)
    (by decide) rfl

/-- C5 counterexample: for the header line `"token: abc \n"` the code records
the value `"abc"` — `val.strip()` removes the trailing whitespace too — while
the claim (left-trim only, trailing whitespace preserved) predicts the
left-stripped remainder `"abc \n"`. -/
theorem header_value_trailing_ws_cex :
    processLine ⟨[], false⟩ ("token: abc \n".data) =
      LineResult.cont ⟨[("token".data, "abc".data)], false⟩ ∧
    "abc".data ≠ lstrip (" abc \n".data) := by decide

/-- C5 (corrected): for a pre-body header line `key ++ ":" ++ val` (key
non-blank, whitespace-free and `:`-free), the whole line is stripped before
splitting, the recorded key is the part before the first `:`, and the
recorded value is the remainder stripped of BOTH leading and trailing
whitespace (`val.strip()`), not merely left-trimmed. -/
theorem header_value_recorded_fully_stripped (env : List (List Char × List Char))
    (key val : List Char) (hne : key ≠ [])
    (hkc : ∀ c ∈ key, c ≠ ':') (hkw : ∀ c ∈ key, c.isWhitespace = false) :
    processLine ⟨env, false⟩ (key ++ ':' :: val) =
      (if key = "data".data then LineResult.beginBody else LineResult.cont)
        ⟨envSet env key (strip val), false⟩ := by
  match key, hne with
  | c :: k', _ =>
    have hcw : c.isWhitespace = false := hkw c (List.mem_cons_self _ _)
    have hstrip : strip ((c :: k') ++ ':' :: val) = (c :: k') ++ ':' :: rstrip val := by
      unfold strip lstrip
      rw [show (c :: k') ++ ':' :: val = c :: (k' ++ ':' :: val) by simp,
        dropWhile_cons_neg hcw,
        show c :: (k' ++ ':' :: val) = (c :: k') ++ ':' :: val by simp,
        rstrip_append_cons _ _ (by decide)]
    have hsplit : splitFirst ':' ((c :: k') ++ ':' :: rstrip val) =
        some (c :: k', rstrip val) := splitFirst_append _ _ hkc
    have hopen : ¬ strip ((c :: k') ++ ':' :: val) = "open".data := by
      rw [hstrip]
      intro hcontra
      exact colon_not_mem_open
        (hcontra ▸ List.mem_append_right _ (List.mem_cons_self _ _))
    unfold processLine
    rw [if_neg (by simp), if_neg hopen, hstrip, hsplit]
    by_cases hd : c :: k' = "data".data
    · simp [hd, strip_rstrip]
    · simp [hd, strip_rstrip]

theorem header_value_stripped_witness :
    processLine ⟨[], false⟩ ("token".data ++ ':' :: (" v \n".data)) =
      (if "token".data = "data".data then LineResult.beginBody else LineResult.cont)
        ⟨envSet [] ("token".data) (strip (" v \n".data)), false⟩ :=
  header_value_recorded_fully_stripped [] ("token".data) (" v \n".data)
    (by decide) (by decide) (by decide)

/-- C1 (code_bug evaluation): with `data: 1` and exactly one body byte (0x68,
sent as a single newline-less chunk), `_download` stages an EMPTY body — the
guard `if total_size > 1` on rsub.py line 58 skips the read loop for `N = 1` —
instead of a body equal to the original byte. -/
theorem download_one_byte_staged_empty :
    download 4 1 [[104]] = some [] ∧ download 4 1 [[104]] ≠ some [104] := by decide

theorem downloadLoop_reconstructs (chunks : List (List Nat)) :
    ∀ (fuel done_size total_size : Nat) (body : List Nat),
      (∀ c ∈ chunks, c ≠ []) →
      done_size + (chunks.map List.length).sum = total_size →
      chunks.length < fuel →
      downloadLoop fuel done_size total_size chunks body =
        some (body ++ chunks.flatten) := by
  induction chunks with
  | nil =>
    intro fuel done_size total_size body _ hsum hfuel
    match fuel, hfuel with
    | fuel + 1, _ =>
      simp only [List.map_nil, List.sum_nil, Nat.add_zero] at hsum
      rw [downloadLoop, if_neg (by omega)]
      simp
  | cons c cs ih =>
    intro fuel done_size total_size body hne hsum hfuel
    have hclen : 0 < c.length :=
      List.length_pos.mpr (hne c (List.mem_cons_self _ _))
    simp only [List.map_cons, List.sum_cons] at hsum
    match fuel, hfuel with
    | fuel + 1, hfuel =>
      rw [downloadLoop, if_pos (by omega)]
      simp only [readLine]
      rw [if_neg (by omega)]
      rw [ih fuel (done_size + c.length) total_size (body ++ c)
        (fun x hx => hne x (List.mem_cons_of_mem _ hx)) (by omega)
        (by simpa [List.length_cons] using Nat.lt_of_succ_lt_succ hfuel)]
      simp

/-- For every declared size other than the buggy `N = 1` case (here `N ≥ 2`),
`_download` reconstructs the body byte-for-byte, however the `N` bytes are
chunked into readline results (supporting theorem for C1: the claimed
property holds for all `N ≥ 2`, isolating `N = 1` as the slip). -/
theorem download_reconstructs (fuel total_size : Nat) (chunks : List (List Nat))
    (h2 : 2 ≤ total_size) (hne : ∀ c ∈ chunks, c ≠ [])
    (hsum : (chunks.map List.length).sum = total_size)
    (hfuel : chunks.length < fuel) :
    download fuel total_size chunks = some chunks.flatten := by
  unfold download
  rw [if_pos (by omega),
    downloadLoop_reconstructs chunks fuel 0 total_size [] hne (by omega) hfuel]
  simp

theorem download_reconstructs_witness :
    download 4 5 [[104, 101, 108], [108, 111]] = some [104, 101, 108, 108, 111] :=
  download_reconstructs 4 5 [[104, 101, 108], [108, 111]] (by decide) (by decide)
    (by decide) (by decide)

theorem downloadLoop_eof_diverges :
    ∀ (fuel done_size total_size : Nat) (body : List Nat),
      done_size < total_size →
      downloadLoop fuel done_size total_size [] body = none := by
  intro fuel
  induction fuel with
  | zero => intro _ _ _ _; rfl
  | succ fuel ih =>
    intro done_size total_size body h
    rw [downloadLoop, if_pos h]
    simp only [readLine, List.length_nil, Nat.add_zero, List.take]
    rw [if_neg (by omega)]
    exact ih done_size total_size (body ++ []) h

/-- C2 (code_bug evaluation): with `data: 5` and the stream ending (EOF) after
only two body bytes, the `_download` read loop never terminates — after EOF
`readline()` returns `b""` forever, `done_size` stops growing at 2, and no
amount of fuel finishes the loop — whereas the claim says the read terminates
and the session is abandoned. -/
theorem download_eof_mid_body_diverges (fuel : Nat) :
    download fuel 5 [[97, 98]] = none := by
  unfold download
  rw [if_pos (by omega)]
  match fuel with
  | 0 => rfl
  | fuel + 1 =>
    rw [downloadLoop, if_pos (by decide)]
    simp only [readLine]
    rw [if_neg (by decide)]
    exact downloadLoop_eof_diverges fuel (0 + [97, 98].length) 5 _ (by decide)

theorem dictGet_dictSet (m : List (Nat × SessionSt)) (k : Nat) (v : SessionSt) :
    dictGet (dictSet m k v) k = some v := by
  unfold dictGet dictSet
  rw [List.find?_append]
  have h1 : List.find? (fun p => p.1 == k) (m.filter (fun p => ! (p.1 == k))) =
      none := by
    rw [List.find?_eq_none]
    intro x hx
    have hx2 := (List.mem_filter.mp hx).2
    simp only [Bool.not_eq_true'] at hx2
    simp [hx2]
  rw [h1]
  simp

theorem countP_dictSet (m : List (Nat × SessionSt)) (k : Nat) (v : SessionSt) :
    (dictSet m k v).countP (fun p => p.1 == k) = 1 := by
  unfold dictSet
  rw [List.countP_append]
  have h0 : (m.filter (fun p => ! (p.1 == k))).countP (fun p => p.1 == k) = 0 := by
    rw [List.countP_eq_zero]
    intro a ha
    have ha2 := (List.mem_filter.mp ha).2
    simp only [Bool.not_eq_true'] at ha2
    simp [ha2]
  rw [h0]
  simp [List.countP_cons]

/-- C6 (confirmed): when a second session's editor-open resolves to a
`view.id()` already owned by a live session, `on_done` leaves exactly one
session — the newer one — registered under that identity, the previous
session's socket is shut down and closed, and the previous session's staged
file is NOT deleted (`previous.close(keep=True)`). -/
theorem duplicate_open_resolution (sessions : List (Nat × SessionSt))
    (view_id : Nat) (s previous : SessionSt) (tok : List Char)
    (hprev : dictGet sessions view_id = some previous)
    (htok : envGet previous.env ("token".data) = some tok) :
    ∃ r, on_done sessions view_id s = some r ∧
      r.sessions = dictSet sessions view_id s ∧
      dictGet r.sessions view_id = some s ∧
      r.sessions.countP (fun p => p.1 == view_id) = 1 ∧
      SockOp.shutdown ∈ r.prevOps ∧ SockOp.closeSock ∈ r.prevOps ∧
      r.prevRemoved = none := by
  unfold on_done close
  simp only [hprev, htok, Option.map_some']
  refine ⟨_, rfl, rfl, dictGet_dictSet .., countP_dictSet .., ?_, ?_, rfl⟩
  · simp
  · simp

theorem duplicate_open_resolution_witness :
    ∃ r, on_done [(7, ⟨[("token".data, "t1".data)], some ("q".data)⟩)] 7
        ⟨[("token".data, "t2".data)], some ("q".data)⟩ = some r ∧
      r.sessions = dictSet [(7, ⟨[("token".data, "t1".data)], some ("q".data)⟩)] 7
        ⟨[("token".data, "t2".data)], some ("q".data)⟩ ∧
      dictGet r.sessions 7 = some ⟨[("token".data, "t2".data)], some ("q".data)⟩ ∧
      r.sessions.countP (fun p => p.1 == 7) = 1 ∧
      SockOp.shutdown ∈ r.prevOps ∧ SockOp.closeSock ∈ r.prevOps ∧
      r.prevRemoved = none :=
  duplicate_open_resolution [(7, ⟨[("token".data, "t1".data)], some ("q".data)⟩)] 7
    ⟨[("token".data, "t2".data)], some ("q".data)⟩
    ⟨[("token".data, "t1".data)], some ("q".data)⟩ ("t1".data)
    (by decide) (by decide)

/-- C7 (confirmed): `send_save` writes to the socket, in this exact order:
the line `save`, then `token: <token>`, then `data: <len>` where `<len>` is
exactly the byte length of the staged-file content transmitted, then those
raw bytes, then a blank line; no acknowledgement is awaited (the function
performs no read). -/
theorem send_save_message_order (s : SessionSt) (content : List Nat)
    (tok p : List Char)
    (htok : envGet s.env ("token".data) = some tok) (hp : s.local_path = some p) :
    send_save s content =
      some [SockOp.send (bytesOf ("save\n".data)),
            SockOp.send (bytesOf ("token: ".data) ++ bytesOf tok
              ++ bytesOf ("\n".data)),
            SockOp.send (bytesOf ("data: ".data)
              ++ bytesOf ((Nat.repr content.length).data) ++ bytesOf ("\n".data)),
            SockOp.send content,
            SockOp.send (bytesOf ("\n".data))] := by
  unfold send_save
  rw [htok, hp]

theorem send_save_message_order_witness :
    send_save ⟨[("token".data, "abc".data)], some ("p".data)⟩
        (bytesOf ("HELLO!".data)) =
      some [SockOp.send (bytesOf ("save\n".data)),
            SockOp.send (bytesOf ("token: ".data) ++ bytesOf ("abc".data)
              ++ bytesOf ("\n".data)),
            SockOp.send (bytesOf ("data: ".data)
              ++ bytesOf ((Nat.repr (bytesOf ("HELLO!".data)).length).data)
              ++ bytesOf ("\n".data)),
            SockOp.send (bytesOf ("HELLO!".data)),
            SockOp.send (bytesOf ("\n".data))] :=
  send_save_message_order ⟨[("token".data, "abc".data)], some ("p".data)⟩
    (bytesOf ("HELLO!".data)) ("abc".data) ("p".data) (by decide) rfl

/-- C8 (confirmed): `close` writes to the socket, in this exact order: the
line `close`, then `token: <token>`, then a blank line, then shuts down and
closes the socket; and the staged file is deleted if and only if `keep`
(`keepStagedFile`) is false. -/
theorem close_message_order_and_unlink (s : SessionSt) (keep : Bool)
    (tok p : List Char)
    (htok : envGet s.env ("token".data) = some tok) (hp : s.local_path = some p) :
    ∃ r, close s keep = some r ∧
      r.ops = [SockOp.send (bytesOf ("close\n".data)),
               SockOp.send (bytesOf ("token: ".data) ++ bytesOf tok
                 ++ bytesOf ("\n".data)),
               SockOp.send (bytesOf ("\n".data)),
               SockOp.shutdown, SockOp.closeSock] ∧
      (r.removedFile = some p ↔ keep = false) := by
  unfold close
  rw [htok]
  cases keep with
  | true => exact ⟨_, rfl, rfl, by simp⟩
  | false =>
    rw [hp]
    exact ⟨_, rfl, rfl, by simp⟩

theorem close_message_order_witness :
    ∃ r, close ⟨[("token".data, "abc".data)], some ("p".data)⟩ false = some r ∧
      r.ops = [SockOp.send (bytesOf ("close\n".data)),
               SockOp.send (bytesOf ("token: ".data) ++ bytesOf ("abc".data)
                 ++ bytesOf ("\n".data)),
               SockOp.send (bytesOf ("\n".data)),
               SockOp.shutdown, SockOp.closeSock] ∧
      (r.removedFile = some ("p".data) ↔ false = false) :=
  close_message_order_and_unlink ⟨[("token".data, "abc".data)], some ("p".data)⟩
    false ("abc".data) ("p".data) (by decide) rfl

/-- C10 (confirmed): an editor buffer-saved or buffer-closed event whose
`view.id()` is not in the `SESSIONS` registry is a no-op: no socket write
occurs, no file is deleted, and the registry is unchanged. -/
theorem unknown_view_event_noop (sessions : List (Nat × SessionSt))
    (view_id : Nat) (content : List Nat)
    (h : dictGet sessions view_id = none) :
    on_post_save_async sessions view_id content = some ⟨sessions, [], none⟩ ∧
    on_close sessions view_id = some ⟨sessions, [], none⟩ := by
  unfold on_post_save_async on_close
  rw [h]
  exact ⟨rfl, rfl⟩

theorem unknown_view_event_noop_witness :
    on_post_save_async [] 7 [104] = some ⟨[], [], none⟩ ∧
    on_close [] 7 = some ⟨[], [], none⟩ :=
  unknown_view_event_noop [] 7 [104] rfl

theorem dropLast_component (s b : List Char) (hb : ∀ x ∈ b, x ≠ '/') :
    (((s ++ '/' :: b).reverse.dropWhile (fun x => ! decide (x = '/'))).drop 1).reverse
      = s := by
  have h1 : (s ++ '/' :: b).reverse = b.reverse ++ '/' :: s.reverse := by
    rw [show s ++ '/' :: b = s ++ ['/'] ++ b by simp]
    simp [List.reverse_append]
  rw [h1, dropWhile_append_all (fun x hx => by
      have hx2 := hb x (List.mem_reverse.mp hx)
      simp [hx2]),
    dropWhile_cons_neg (by simp)]
  simp

/-- C9 (confirmed): staged path derivation is a deterministic function of the
headers. In particular display-name `host1:/a/b/file.txt` with real-path
`/a/b/file.txt` yields `root/host1/a/b/file.txt`; and in general, for
display-name `<remote>:<dpath>` (`remote` colon-free) and an absolute
real-path `/<c><a'>/<b>` whose first character after the leading slash is not
a slash and whose last component `b` is slash-free, the code's staged path
equals the claim's formula: root / remote / dirname(real-path) with its
leading `/` stripped / basename(dpath). -/
theorem staged_path_matches_spec :
    (localPathOf ("root".data) ("host1:/a/b/file.txt".data) ("/a/b/file.txt".data) =
      some ("root/host1/a/b/file.txt".data)) ∧
    ∀ (root remote dpath a' b : List Char) (c : Char),
      (∀ x ∈ remote, x ≠ ':') → c ≠ '/' → (∀ x ∈ b, x ≠ '/') →
      localPathOf root (remote ++ ':' :: dpath) ('/' :: c :: a' ++ '/' :: b) =
        stagedPathSpec root (remote ++ ':' :: dpath) ('/' :: c :: a' ++ '/' :: b) := by
  refine ⟨by decide, ?_⟩
  intro root remote dpath a' b c hremote hc hb
  have hsplit : splitFirst ':' (remote ++ ':' :: dpath) = some (remote, dpath) :=
    splitFirst_append remote dpath hremote
  have hc' : decide (c = '/') = false := decide_eq_false hc
  have hlss : lstripSlash ('/' :: c :: a' ++ '/' :: b) = c :: a' ++ '/' :: b := by
    simp [lstripSlash, List.dropWhile_cons, hc']
  have hpar : pathParent (c :: a' ++ '/' :: b) = c :: a' := by
    unfold pathParent
    rw [if_pos (List.any_eq_true.mpr ⟨'/', by simp, by simp⟩)]
    exact dropLast_component (c :: a') b hb
  have hdir : dirname ('/' :: c :: a' ++ '/' :: b) = '/' :: c :: a' :=
    dropLast_component ('/' :: c :: a') b hb
  have hlsd : lstripSlash ('/' :: c :: a') = c :: a' := by
    simp [lstripSlash, List.dropWhile_cons, hc']
  unfold localPathOf stagedPathSpec
  rw [hsplit]
  simp only [Option.map_some', joinPath, hlss, hpar, hdir, hlsd]

theorem staged_path_witness :
    localPathOf ("root".data) ("host1".data ++ ':' :: ("/a/b/file.txt".data))
        ('/' :: 'a' :: ("/b".data) ++ '/' :: ("file.txt".data)) =
      stagedPathSpec ("root".data) ("host1".data ++ ':' :: ("/a/b/file.txt".data))
        ('/' :: 'a' :: ("/b".data) ++ '/' :: ("file.txt".data)) :=
  staged_path_matches_spec.2 ("root".data) ("host1".data) ("/a/b/file.txt".data)
    ("/b".data) ("file.txt".data) 'a' (by decide) (by decide) (by decide)

end Rsub
